import Mathlib

/-!
Verification of the session discovery, sticky routing and async-job
coordination core of the ClaudeR MCP bridge
(source: src/clauder-mcp/src/clauder_mcp/server.py).

The Python functions are shallowly embedded as pure Lean functions:
* the mutable module-level binding `_target_session` becomes explicit
  state passed in and returned;
* the discovery directory becomes a list of files, each carrying either
  a parsed descriptor or a parse-failure marker;
* the OS pid probe and the HTTP transport become oracle functions
  supplied as parameters;
* Python exceptions that escape a function (KeyError, IndexError)
  become the error side of an `Except`.
-/

namespace ClaudeR

/-- A session descriptor as parsed from a discovery JSON file
(`session_name`, `port`, `pid`, `started_at`; every key may be absent,
since `json.load` accepts any object). -/
structure Desc where
  session_name : Option String := none
  port : Option Int := none
  pid : Option Int := none
  started_at : Option String := none
deriving DecidableEq, Repr

/-- Content of one file in the discovery directory: either it parses as a
JSON object (a raw descriptor) or reading/parsing raises (corrupt file,
concurrent deletion, non-object JSON). -/
inductive FileContent where
  | valid (d : Desc)
  | invalid
deriving DecidableEq, Repr

/-- One file of the discovery directory. -/
structure FSFile where
  fname : String
  content : FileContent
deriving DecidableEq, Repr

/-- Outcome of the `os.kill(pid, 0)` probe. `PermissionError` and
`ProcessLookupError` are both subclasses of `OSError` in Python. -/
inductive KillResult where
  | ok
  | processLookupError
  | permissionError
  | otherOSError
deriving DecidableEq, Repr

/-- Embeds `_pid_alive`: `try: os.kill(pid, 0); return True`
`except (OSError, ProcessLookupError): return False`. Every probe
failure, permission denied included, lands in the `except` clause. -/
def pid_alive_outcome : KillResult → Bool
  | .ok => true
  | .processLookupError => false
  | .permissionError => false
  | .otherOSError => false

/-- Python exceptions that escape the routing code uncaught. -/
inductive PyErr where
  | keyError (field : String)
  | indexError
deriving DecidableEq, Repr

/-- Embeds `discover_sessions` over a directory listing, with the pid
probe supplied as an oracle `probe`. Returns the parsed descriptors in
listing order together with the files that remain on disk afterwards:
non-`.json` files are skipped untouched, a file whose descriptor's pid
(default `-1`) is dead is removed, an unparsable file is removed. -/
def discover_sessions (probe : Int → KillResult) : List FSFile → List Desc × List FSFile
  | [] => ([], [])
  | f :: fs =>
    let rest := discover_sessions probe fs
    if f.fname.endsWith ".json" then
      match f.content with
      | .valid d =>
        if pid_alive_outcome (probe (d.pid.getD (-1))) then (d :: rest.1, f :: rest.2)
        else (rest.1, rest.2)
      | .invalid => (rest.1, rest.2)
    else (rest.1, f :: rest.2)

/-- `R_ADDIN_URL`, the constant fallback address. -/
def R_ADDIN_URL : String := "http://127.0.0.1:8787"

/-- The address derived from a port: `f"http://127.0.0.1:{port}"`. -/
def mkUrl (p : Int) : String := "http://127.0.0.1:" ++ toString p

/-- Python truthiness of the `_target_session` global: `None` and the
empty string are falsy. -/
def truthy : Option String → Bool
  | none => false
  | some t => t ≠ ""

/-- The lookup loop of `get_r_addin_url`:
`for s in sessions: if s["session_name"] == _target_session: ...`.
A descriptor without the `session_name` key raises `KeyError` when the
loop reaches it. -/
def find_by_name (t : String) : List Desc → Except PyErr (Option Desc)
  | [] => .ok none
  | s :: ss =>
    match s.session_name with
    | none => .error (.keyError "session_name")
    | some nm => if nm = t then .ok (some s) else find_by_name t ss

/-- `sessions.sort(key=lambda s: s.get("port", 99999))` — a stable sort
on the port with default 99999. -/
def sortByPort (ss : List Desc) : List Desc :=
  ss.mergeSort (fun a b => a.port.getD 99999 ≤ b.port.getD 99999)

/-- The auto-pick tail of `get_r_addin_url` (lines 81-86): prefer the
descriptor named "default", else the first descriptor after sorting by
port; then `_target_session = pick["session_name"]` and the return of
`f"http://127.0.0.1:{pick['port']}"`, each raising `KeyError` when the
key is absent (`IndexError` would arise from `sessions[0]` on an empty
list; the caller guards non-emptiness). -/
def autopick (ss : List Desc) : Except PyErr (Option String × Option String) :=
  let found := ss.find? (fun s => s.session_name == some "default")
  let pick := match found with
    | some p => some p
    | none => (sortByPort ss).head?
  match pick with
  | none => .error .indexError
  | some p =>
    match p.session_name with
    | none => .error (.keyError "session_name")
    | some nm =>
      match p.port with
      | none => .error (.keyError "port")
      | some prt => .ok (some (mkUrl prt), some nm)

/-- Embeds `get_r_addin_url`, with the discovery result `ss` passed in
and the `_target_session` global passed as `st`. Returns the
`Optional[str]` result paired with the new value of `_target_session`. -/
def get_r_addin_url (ss : List Desc) (st : Option String) :
    Except PyErr (Option String × Option String) :=
  if ss.isEmpty then .ok (some R_ADDIN_URL, st)
  else if truthy st then
    match find_by_name (st.getD "") ss with
    | .error e => .error e
    | .ok (some s) =>
      match s.port with
      | none => .error (.keyError "port")
      | some p => .ok (some (mkUrl p), st)
    | .ok none => autopick ss
  else autopick ss

/-- Runs `get_r_addin_url` n times against a fixed discovery result,
threading the binding state through and collecting the returned
addresses. -/
def resolveTimes (ss : List Desc) : Option String → Nat → Except PyErr (List (Option String) × Option String)
  | st, 0 => .ok ([], st)
  | st, n + 1 =>
    match get_r_addin_url ss st with
    | .error e => .error e
    | .ok (u, st') =>
      match resolveTimes ss st' n with
      | .error e => .error e
      | .ok (us, stf) => .ok (u :: us, stf)

/-- A descriptor carries both keys that `get_r_addin_url` indexes
directly. -/
def DescWF (d : Desc) : Prop := d.session_name.isSome ∧ d.port.isSome

/-- Every discovered descriptor is well-formed. -/
def SessionsWF (ss : List Desc) : Prop := ∀ d ∈ ss, DescWF d

instance : DecidablePred DescWF := fun _ =>
  inferInstanceAs (Decidable (_ ∧ _))

instance (ss : List Desc) : Decidable (SessionsWF ss) :=
  inferInstanceAs (Decidable (∀ d ∈ ss, DescWF d))

/-- The spec's data-model invariant: session names are unique among the
live sessions. -/
def NamesNodup (ss : List Desc) : Prop := (ss.map Desc.session_name).Nodup

instance (ss : List Desc) : Decidable (NamesNodup ss) :=
  inferInstanceAs (Decidable (List.Nodup _))

/-- A `.json` file whose content parses and whose pid probes alive:
exactly the files `discover_sessions` keeps and returns. -/
def liveJsonFile (probe : Int → KillResult) (f : FSFile) : Bool :=
  f.fname.endsWith ".json" &&
    match f.content with
    | .valid d => pid_alive_outcome (probe (d.pid.getD (-1)))
    | .invalid => false

/-- A file that survives a `discover_sessions` pass: either it is not a
`.json` file (skipped) or it is a live valid descriptor. -/
def keptFile (probe : Int → KillResult) (f : FSFile) : Bool :=
  (!f.fname.endsWith ".json") || liveJsonFile probe f

/-- The descriptor stored in a file, when it parses. -/
def descOf (f : FSFile) : Option Desc :=
  match f.content with
  | .valid d => some d
  | .invalid => none

/-- The JSON body of an addin HTTP response, restricted to the keys the
bridge reads (each may be absent). The error-shaped dicts the bridge
builds itself use the same shape. -/
structure RBody where
  success : Option Bool := none
  error : Option String := none
  output : Option String := none
  status : Option String := none
  elapsed_seconds : Option Nat := none
deriving DecidableEq, Repr

/-- Outcome of one `httpx` POST against a given address: a parsed JSON
body, an `httpx.HTTPError` (connection refused, timeout, bad status
from `raise_for_status`), or any other exception (e.g. a body that is
not JSON). -/
inductive HttpOutcome where
  | ok (body : RBody)
  | httpError (e : String)
  | otherError (e : String)
deriving DecidableEq, Repr

/-- The dict built by the dead `if url is None` branch of the senders. -/
def noSessionsBody : RBody :=
  { success := some false
    error := some "No R sessions found. Start the ClaudeR addin in RStudio first." }

/-- The dict built by the `except httpx.HTTPError` branch of
`execute_r_code_via_addin`. -/
def httpErrorBody (e : String) : RBody :=
  { success := some false
    error := some ("HTTP error communicating with RStudio: " ++ e) }

/-- The dict built by the generic `except Exception` branch of
`execute_r_code_via_addin` and by the single `except` branch of
`post_to_r_addin`. -/
def commErrorBody (e : String) : RBody :=
  { success := some false
    error := some ("Error communicating with RStudio: " ++ e) }

/-- Embeds `execute_r_code_via_addin`: resolve an address (outside any
`try`, so a `KeyError` from resolution escapes), return the no-sessions
dict if it were `None`, otherwise POST and normalize the two exception
classes into error dicts. The HTTP exchange is the oracle `transport`. -/
def execute_r_code_via_addin (transport : String → HttpOutcome) (ss : List Desc)
    (st : Option String) : Except PyErr (RBody × Option String) :=
  match get_r_addin_url ss st with
  | .error e => .error e
  | .ok (url, st') =>
    match url with
    | none => .ok (noSessionsBody, st')
    | some u =>
      match transport u with
      | .ok body => .ok (body, st')
      | .httpError e => .ok (httpErrorBody e, st')
      | .otherError e => .ok (commErrorBody e, st')

/-- Embeds `post_to_r_addin`: like `execute_r_code_via_addin` but with a
single generic `except Exception` branch. -/
def post_to_r_addin (transport : String → HttpOutcome) (ss : List Desc)
    (st : Option String) : Except PyErr (RBody × Option String) :=
  match get_r_addin_url ss st with
  | .error e => .error e
  | .ok (url, st') =>
    match url with
    | none => .ok (noSessionsBody, st')
    | some u =>
      match transport u with
      | .ok body => .ok (body, st')
      | .httpError e => .ok (commErrorBody e, st')
      | .otherError e => .ok (commErrorBody e, st')

/-- The observable steps the `get_async_result` tool performs, in
order: the fixed `asyncio.sleep` and the status POST to a session. -/
inductive Effect where
  | sleep (seconds : Nat)
  | httpPost (url : String) (job_id : String)
deriving DecidableEq, Repr

/-- The reply the `get_async_result` tool builds from a status body. -/
inductive PollReply where
  | notFound (job_id : String)
  | stillRunning (job_id : String) (elapsed : Option Nat)
  | jobError (msg : String)
  | completed (output : String)
  | completedNoOutput
deriving DecidableEq, Repr

/-- Embeds lines 882-914 of the `get_async_result` branch: read
`status` with default "unknown", report not-found or still-running, and
otherwise treat the job as finished, reporting the error when
`success` is not truthy and the output (if any) when it is. -/
def classify_job_result (job_id : String) (result : RBody) : PollReply :=
  let status := result.status.getD "unknown"
  if status = "not_found" then .notFound job_id
  else if status = "running" then .stillRunning job_id result.elapsed_seconds
  else if ¬ (result.success.getD false) then .jobError (result.error.getD "Unknown error")
  else
    match result.output with
    | some out => if out ≠ "" then .completed out else .completedNoOutput
    | none => .completedNoOutput

/-- `post_to_r_addin` with its observable HTTP effect recorded: one POST
to the resolved address, or none when resolution raises or yields no
address. -/
def post_to_r_addin_traced (transport : String → HttpOutcome) (ss : List Desc)
    (st : Option String) (job_id : String) :
    List Effect × Except PyErr (RBody × Option String) :=
  match get_r_addin_url ss st with
  | .error e => ([], .error e)
  | .ok (url, st') =>
    match url with
    | none => ([], .ok (noSessionsBody, st'))
    | some u =>
      match transport u with
      | .ok body => ([Effect.httpPost u job_id], .ok (body, st'))
      | .httpError e => ([Effect.httpPost u job_id], .ok (commErrorBody e, st'))
      | .otherError e => ([Effect.httpPost u job_id], .ok (commErrorBody e, st'))

/-- Embeds the `get_async_result` branch of `call_tool` (lines
873-914): `await asyncio.sleep(10)`, then the `check_job` POST through
`post_to_r_addin`, then the classification of the returned body.
Returns the effect trace in program order alongside the reply. -/
def get_async_result_model (transport : String → HttpOutcome) (ss : List Desc)
    (st : Option String) (job_id : String) :
    List Effect × Except PyErr (PollReply × Option String) :=
  let posted := post_to_r_addin_traced transport ss st job_id
  (Effect.sleep 10 :: posted.1,
    posted.2.map (fun r => (classify_job_result job_id r.1, r.2)))

/-- The reply of the `connect_session` branch of `call_tool`. -/
inductive ConnectReply where
  | missingArg
  | notFound (requested : String) (available : List String)
  | connected (name : String)
deriving DecidableEq, Repr

/-- Embeds the `connect_session` branch of `call_tool` (lines 940-962):
an absent or empty `session_name` argument fails immediately; otherwise
a fresh discovery result `ss` is searched and the binding is overwritten
exactly when the name is found, the failure reply carrying the list of
available names (`s.get("session_name", "?")`). -/
def connect_session (ss : List Desc) (st : Option String) (session_name : String) :
    ConnectReply × Option String :=
  if session_name = "" then (.missingArg, st)
  else if ss.any (fun s => s.session_name == some session_name) then
    (.connected session_name, some session_name)
  else
    (.notFound session_name (ss.map (fun s => s.session_name.getD "?")), st)

/-- Value of a decimal digit string, read left to right, continuing
from an already accumulated value `a` (used only to prove that the
decimal rendering of a port is injective). -/
def decValFrom (a : Nat) : List Char → Nat
  | [] => a
  | c :: l => decValFrom (10 * a + (c.toNat - 48)) l

/-- The number obtained by writing the decimal digits of `n` after the
digits accumulated in `a`. -/
def pushDigits (a : Nat) (n : Nat) : Nat :=
  if n < 10 then 10 * a + n
  else 10 * pushDigits a (n / 10) + n % 10
termination_by n
decreasing_by exact Nat.div_lt_self (by omega) (by omega)

/-! Theorems. First, injectivity of the decimal rendering used by
`mkUrl`, proved through the evaluation map `decValFrom`. -/

theorem decValFrom_cons (a : Nat) (c : Char) (l : List Char) :
    decValFrom a (c :: l) = decValFrom (10 * a + (c.toNat - 48)) l := rfl

theorem digitChar_val : ∀ m, m < 10 → (Nat.digitChar m).toNat - 48 = m := by decide

theorem digitChar_ne_minus : ∀ m, m < 10 → Nat.digitChar m ≠ '-' := by decide

theorem pushDigits_self (n : Nat) : pushDigits 0 n = n := by
  induction n using Nat.strong_induction_on with
  | _ n ih =>
    rw [pushDigits]
    by_cases h : n < 10
    · simp [h]
    · have hlt : n / 10 < n := Nat.div_lt_self (by omega) (by omega)
      simp only [h, if_false]
      rw [ih _ hlt]
      omega

theorem toDigitsCore_succ_eq (b fuel n : Nat) (ds : List Char) :
    Nat.toDigitsCore b (fuel + 1) n ds =
      if n / b = 0 then Nat.digitChar (n % b) :: ds
      else Nat.toDigitsCore b fuel (n / b) (Nat.digitChar (n % b) :: ds) := rfl

theorem decValFrom_toDigitsCore :
    ∀ (fuel n : Nat), n < fuel → ∀ (a : Nat) (ds : List Char),
      decValFrom a (Nat.toDigitsCore 10 fuel n ds) = decValFrom (pushDigits a n) ds := by
  intro fuel
  induction fuel with
  | zero => intro n hn; omega
  | succ fuel ih =>
    intro n hn a ds
    rw [toDigitsCore_succ_eq]
    by_cases hdiv : n / 10 = 0
    · have hn10 : n < 10 := by omega
      rw [if_pos hdiv]
      rw [decValFrom_cons]
      rw [digitChar_val (n % 10) (Nat.mod_lt _ (by omega))]
      rw [pushDigits]
      simp [hn10, Nat.mod_eq_of_lt hn10]
    · have hnpos : 0 < n := by
        rcases Nat.eq_zero_or_pos n with h | h
        · subst h; simp at hdiv
        · exact h
      have hlt : n / 10 < fuel := by
        have := Nat.div_lt_self hnpos (by omega : 1 < 10)
        omega
      rw [if_neg hdiv]
      rw [ih (n / 10) hlt a (Nat.digitChar (n % 10) :: ds)]
      rw [decValFrom_cons]
      rw [digitChar_val (n % 10) (Nat.mod_lt _ (by omega))]
      conv_rhs => rw [pushDigits]
      have : ¬ n < 10 := by
        intro hc
        exact hdiv (Nat.div_eq_of_lt hc)
      simp [this]

theorem toDigitsCore_no_minus :
    ∀ (fuel n : Nat) (ds : List Char), (∀ c ∈ ds, c ≠ '-') →
      ∀ c ∈ Nat.toDigitsCore 10 fuel n ds, c ≠ '-' := by
  intro fuel
  induction fuel with
  | zero => intro n ds hds; simpa [Nat.toDigitsCore] using hds
  | succ fuel ih =>
    intro n ds hds c hc
    rw [toDigitsCore_succ_eq] at hc
    by_cases hdiv : n / 10 = 0
    · rw [if_pos hdiv] at hc
      rcases List.mem_cons.mp hc with h | h
      · subst h; exact digitChar_ne_minus _ (Nat.mod_lt _ (by omega))
      · exact hds c h
    · rw [if_neg hdiv] at hc
      refine ih (n / 10) (Nat.digitChar (n % 10) :: ds) ?_ c hc
      intro c' hc'
      rcases List.mem_cons.mp hc' with h | h
      · subst h; exact digitChar_ne_minus _ (Nat.mod_lt _ (by omega))
      · exact hds c' h

theorem natRepr_injective {m n : Nat} (h : Nat.repr m = Nat.repr n) : m = n := by
  have hd : Nat.toDigits 10 m = Nat.toDigits 10 n := by
    have := congrArg String.data h
    simpa [Nat.repr, List.asString] using this
  have h1 := decValFrom_toDigitsCore (m + 1) m (Nat.lt_succ_self m) 0 []
  have h2 := decValFrom_toDigitsCore (n + 1) n (Nat.lt_succ_self n) 0 []
  have e1 : decValFrom 0 (Nat.toDigits 10 m) = m := by
    rw [Nat.toDigits, h1]
    exact pushDigits_self m
  have e2 : decValFrom 0 (Nat.toDigits 10 n) = n := by
    rw [Nat.toDigits, h2]
    exact pushDigits_self n
  rw [← e1, ← e2, hd]

theorem natRepr_no_minus (m : Nat) : '-' ∉ (Nat.repr m).data := by
  intro hc
  have : ∀ c ∈ Nat.toDigits 10 m, c ≠ '-' :=
    toDigitsCore_no_minus (m + 1) m [] (by intro c hc'; cases hc')
  exact this '-' (by simpa [Nat.repr, List.asString] using hc) rfl

theorem intToString_injective {i j : Int} (h : toString i = toString j) : i = j := by
  cases i with
  | ofNat m =>
    cases j with
    | ofNat n =>
      have : Nat.repr m = Nat.repr n := h
      rw [natRepr_injective this]
    | negSucc n =>
      exfalso
      have hd := congrArg String.data h
      have : (Nat.repr m).data = '-' :: (Nat.repr (n + 1)).data := by
        simpa [Int.repr, toString, String.data_append] using hd
      exact natRepr_no_minus m (this ▸ List.mem_cons_self _ _)
  | negSucc m =>
    cases j with
    | ofNat n =>
      exfalso
      have hd := congrArg String.data h
      have : '-' :: (Nat.repr (m + 1)).data = (Nat.repr n).data := by
        simpa [Int.repr, toString, String.data_append] using hd
      exact natRepr_no_minus n (this ▸ List.mem_cons_self _ _)
    | negSucc n =>
      have hd := congrArg String.data h
      have hdd : (Nat.repr (m + 1)).data = (Nat.repr (n + 1)).data := by
        simpa [Int.repr, toString, String.data_append] using hd
      have : Nat.repr (m + 1) = Nat.repr (n + 1) := by
        cases hrm : Nat.repr (m + 1); cases hrn : Nat.repr (n + 1)
        simp_all
      have hmn := natRepr_injective this
      exact congrArg Int.negSucc (by omega)

theorem mkUrl_injective {p q : Int} (h : mkUrl p = mkUrl q) : p = q := by
  have hd := congrArg String.data h
  simp only [mkUrl, String.data_append] at hd
  have : (toString p).data = (toString q).data := List.append_cancel_left hd
  apply intToString_injective
  cases hsp : toString p; cases hsq : toString q
  simp_all

/-! Helper lemmas about the router. -/

theorem find_by_name_cases (t : String) (ss : List Desc) (hwf : SessionsWF ss) :
    find_by_name t ss = .ok none ∨
      ∃ s, find_by_name t ss = .ok (some s) ∧ s ∈ ss ∧ s.session_name = some t := by
  induction ss with
  | nil => exact Or.inl rfl
  | cons s ss ih =>
    obtain ⟨hname, _⟩ := hwf s (List.mem_cons_self s ss)
    obtain ⟨nm, hnm⟩ := Option.isSome_iff_exists.mp hname
    by_cases hnt : nm = t
    · subst hnt
      exact Or.inr ⟨s, by simp [find_by_name, hnm], List.mem_cons_self s ss, hnm⟩
    · have hwf' : SessionsWF ss := fun d hd => hwf d (List.mem_cons_of_mem s hd)
      rcases ih hwf' with h | ⟨s', h, hmem, hsn⟩
      · exact Or.inl (by simp [find_by_name, hnm, hnt, h])
      · exact Or.inr ⟨s', by simp [find_by_name, hnm, hnt, h],
          List.mem_cons_of_mem s hmem, hsn⟩

theorem find_by_name_found {t : String} {ss : List Desc} {P : Desc}
    (hwf : SessionsWF ss) (hnd : NamesNodup ss) (hP : P ∈ ss)
    (hPt : P.session_name = some t) :
    find_by_name t ss = .ok (some P) := by
  induction ss with
  | nil => cases hP
  | cons s ss ih =>
    obtain ⟨hname, _⟩ := hwf s (List.mem_cons_self s ss)
    obtain ⟨nm, hnm⟩ := Option.isSome_iff_exists.mp hname
    have hnd' := hnd
    rw [NamesNodup, List.map_cons, List.nodup_cons] at hnd'
    rcases List.mem_cons.mp hP with rfl | hPtail
    · have hnmt : nm = t := by
        rw [hPt] at hnm
        injection hnm with h
        exact h.symm
      subst hnmt
      simp [find_by_name, hnm]
    · by_cases hnt : nm = t
      · exfalso
        apply hnd'.1
        rw [hnm, hnt]
        exact List.mem_map.mpr ⟨P, hPtail, hPt⟩
      · have hwf' : SessionsWF ss := fun d hd => hwf d (List.mem_cons_of_mem s hd)
        simp only [find_by_name, hnm]
        rw [if_neg hnt]
        exact ih hwf' hnd'.2 hPtail

theorem autopick_spec {ss : List Desc} (hwf : SessionsWF ss) (hne : ss ≠ []) :
    ∃ P ∈ ss, ∃ nm p, P.session_name = some nm ∧ P.port = some p ∧
      autopick ss = .ok (some (mkUrl p), some nm) ∧
      ((∃ e ∈ ss, e.session_name = some "default") → nm = "default") ∧
      ((∀ e ∈ ss, e.session_name ≠ some "default") →
        ∀ e ∈ ss, ∀ q, e.port = some q → p ≤ q) := by
  cases hfind : ss.find? (fun s => s.session_name == some "default") with
  | some P =>
    have hPmem : P ∈ ss := List.mem_of_find?_eq_some hfind
    have hPdef : P.session_name = some "default" := by
      have := List.find?_some hfind
      simpa using this
    obtain ⟨_, hport⟩ := hwf P hPmem
    obtain ⟨p, hp⟩ := Option.isSome_iff_exists.mp hport
    refine ⟨P, hPmem, "default", p, hPdef, hp, ?_, fun _ => rfl, ?_⟩
    · simp [autopick, hfind, hPdef, hp]
    · intro hnone
      exact absurd hPdef (hnone P hPmem)
  | none =>
    have hnodef : ∀ e ∈ ss, e.session_name ≠ some "default" := by
      intro e he
      have := List.find?_eq_none.mp hfind e he
      simpa using this
    have hlen : (sortByPort ss).length = ss.length := by
      simp [sortByPort]
    have hsne : sortByPort ss ≠ [] := by
      intro h
      apply hne
      have := congrArg List.length h
      rw [hlen] at this
      exact List.eq_nil_of_length_eq_zero this
    obtain ⟨H, T, hHT⟩ := List.exists_cons_of_ne_nil hsne
    have hHmem : H ∈ ss := by
      have : H ∈ sortByPort ss := by
        rw [hHT]
        exact List.mem_cons_self _ _
      simpa [sortByPort, List.mem_mergeSort] using this
    obtain ⟨hname, hport⟩ := hwf H hHmem
    obtain ⟨nm, hnm⟩ := Option.isSome_iff_exists.mp hname
    obtain ⟨p, hp⟩ := Option.isSome_iff_exists.mp hport
    refine ⟨H, hHmem, nm, p, hnm, hp, ?_, ?_, ?_⟩
    · simp [autopick, hfind, hHT, hnm, hp]
    · rintro ⟨e, he, hedef⟩
      exact absurd hedef (hnodef e he)
    · intro _ e he q hq
      have hsorted := @List.sorted_mergeSort Desc
        (fun a b : Desc => decide (a.port.getD 99999 ≤ b.port.getD 99999))
        (by
          intro a b c hab hbc
          simp only [decide_eq_true_eq] at *
          omega)
        (by
          intro a b
          simp only [Bool.or_eq_true, decide_eq_true_eq]
          omega)
        ss
      have hemem : e ∈ sortByPort ss := by
        simpa [sortByPort, List.mem_mergeSort] using he
      rw [show ss.mergeSort (fun a b : Desc => a.port.getD 99999 ≤ b.port.getD 99999)
            = sortByPort ss from rfl, hHT] at hsorted
      rw [hHT] at hemem
      rcases List.mem_cons.mp hemem with rfl | heT
      · rw [hp] at hq
        injection hq with hq
        omega
      · have hle := (List.pairwise_cons.mp hsorted).1 e heT
        simp only [decide_eq_true_eq, hp, hq, Option.getD_some] at hle
        exact hle

theorem resolve_step {ss : List Desc} (hwf : SessionsWF ss) (hnd : NamesNodup ss)
    (st : Option String) :
    ∃ u st', get_r_addin_url ss st = .ok (some u, st') ∧
      get_r_addin_url ss st' = .ok (some u, st') := by
  by_cases hss : ss = []
  · subst hss
    exact ⟨R_ADDIN_URL, st, by simp [get_r_addin_url], by simp [get_r_addin_url]⟩
  · have hie : ss.isEmpty = false := by
      simpa [List.isEmpty_iff] using hss
    obtain ⟨P, hPmem, nm, p, hPnm, hPp, hauto, -, -⟩ := autopick_spec hwf hss
    have hfix : get_r_addin_url ss (some nm) = .ok (some (mkUrl p), some nm) := by
      by_cases hnm0 : nm = ""
      · subst hnm0
        simp [get_r_addin_url, hie, truthy, hauto]
      · have hfound := find_by_name_found hwf hnd hPmem hPnm
        simp [get_r_addin_url, hie, truthy, hnm0, hfound, hPp]
    by_cases hstt : truthy st = true
    · obtain ⟨t, rfl⟩ : ∃ t, st = some t := by
        cases st with
        | none => simp [truthy] at hstt
        | some t => exact ⟨t, rfl⟩
      have htne : t ≠ "" := by
        simpa [truthy] using hstt
      rcases find_by_name_cases t ss hwf with hfbn | ⟨s, hfbn, hsmem, hsname⟩
      · refine ⟨mkUrl p, some nm, ?_, hfix⟩
        simp [get_r_addin_url, hie, truthy, htne, hfbn, hauto]
      · obtain ⟨-, hsport⟩ := hwf s hsmem
        obtain ⟨q, hq⟩ := Option.isSome_iff_exists.mp hsport
        refine ⟨mkUrl q, some t, ?_, ?_⟩ <;>
          simp [get_r_addin_url, hie, truthy, htne, hfbn, hq]
    · have hstf : truthy st = false := by
        simpa using hstt
      refine ⟨mkUrl p, some nm, ?_, hfix⟩
      simp [get_r_addin_url, hie, hstf, hauto]

theorem resolveTimes_fix {ss : List Desc} {u : String} {st1 : Option String}
    (hfixp : get_r_addin_url ss st1 = .ok (some u, st1)) :
    ∀ n, resolveTimes ss st1 n = .ok (List.replicate n (some u), st1) := by
  intro n
  induction n with
  | zero => rfl
  | succ n ih => simp [resolveTimes, hfixp, ih, List.replicate_succ]

theorem resolve_ok {ss : List Desc} (hwf : SessionsWF ss) (st : Option String) :
    ∃ u st', get_r_addin_url ss st = .ok (some u, st') := by
  by_cases hss : ss = []
  · subst hss
    exact ⟨R_ADDIN_URL, st, by simp [get_r_addin_url]⟩
  · have hie : ss.isEmpty = false := by
      simpa [List.isEmpty_iff] using hss
    obtain ⟨P, hPmem, nm, p, hPnm, hPp, hauto, -, -⟩ := autopick_spec hwf hss
    by_cases hstt : truthy st = true
    · obtain ⟨t, rfl⟩ : ∃ t, st = some t := by
        cases st with
        | none => simp [truthy] at hstt
        | some t => exact ⟨t, rfl⟩
      rcases find_by_name_cases t ss hwf with hfbn | ⟨s, hfbn, hsmem, -⟩
      · exact ⟨mkUrl p, some nm, by simp [get_r_addin_url, hie, hstt, hfbn, hauto]⟩
      · obtain ⟨-, hsport⟩ := hwf s hsmem
        obtain ⟨q, hq⟩ := Option.isSome_iff_exists.mp hsport
        exact ⟨mkUrl q, some t, by simp [get_r_addin_url, hie, hstt, hfbn, hq]⟩
    · have hstf : truthy st = false := by
        simpa using hstt
      exact ⟨mkUrl p, some nm, by simp [get_r_addin_url, hie, hstf, hauto]⟩

theorem autopick_some {ss : List Desc} {r : Option String × Option String}
    (h : autopick ss = .ok r) : ∃ u nm, r = (some u, some nm) := by
  simp only [autopick] at h
  split at h
  · simp at h
  · split at h
    · simp at h
    · split at h
      · simp at h
      · injection h with h
        exact ⟨_, _, h.symm⟩

theorem resolve_never_none {ss : List Desc} {st u stf : Option String}
    (h : get_r_addin_url ss st = .ok (u, stf)) : u ≠ none := by
  unfold get_r_addin_url at h
  split at h
  · injection h with h
    injection h with hu hst
    subst hu
    simp
  · split at h
    · split at h
      · simp at h
      · split at h
        · simp at h
        · injection h with h
          injection h with hu hst
          subst hu
          simp
      · obtain ⟨u', nm', hr⟩ := autopick_some h
        rw [show u = (u, stf).1 from rfl, hr]
        simp
    · obtain ⟨u', nm', hr⟩ := autopick_some h
      rw [show u = (u, stf).1 from rfl, hr]
      simp

theorem post_traced_shape (transport : String → HttpOutcome) (ss : List Desc)
    (st : Option String) (j : String) :
    (post_to_r_addin_traced transport ss st j).1 = [] ∨
      ∃ url, (post_to_r_addin_traced transport ss st j).1 = [Effect.httpPost url j] := by
  rcases hg : get_r_addin_url ss st with e | ⟨url, st'⟩
  · exact Or.inl (by simp [post_to_r_addin_traced, hg])
  · cases url with
    | none => exact Or.inl (by simp [post_to_r_addin_traced, hg])
    | some u =>
      refine Or.inr ⟨u, ?_⟩
      rcases ht : transport u with b | e | e <;>
        simp [post_to_r_addin_traced, hg, ht]

theorem discover_fst_snd (probe : Int → KillResult) (files : List FSFile) :
    (discover_sessions probe files).1 = (files.filter (liveJsonFile probe)).filterMap descOf ∧
    (discover_sessions probe files).2 = files.filter (keptFile probe) := by
  induction files with
  | nil => exact ⟨rfl, rfl⟩
  | cons f fs ih =>
    obtain ⟨ih1, ih2⟩ := ih
    by_cases hjson : f.fname.endsWith ".json"
    · cases hc : f.content with
      | valid d =>
        by_cases halive : pid_alive_outcome (probe (d.pid.getD (-1))) = true
        · refine ⟨?_, ?_⟩ <;>
            simp [discover_sessions, List.filter_cons, List.filterMap_cons,
              liveJsonFile, keptFile, descOf, hjson, hc, halive, ih1, ih2]
        · have haf : pid_alive_outcome (probe (d.pid.getD (-1))) = false := by
            simpa using halive
          refine ⟨?_, ?_⟩ <;>
            simp [discover_sessions, List.filter_cons, List.filterMap_cons,
              liveJsonFile, keptFile, descOf, hjson, hc, haf, ih1, ih2]
      | invalid =>
        refine ⟨?_, ?_⟩ <;>
          simp [discover_sessions, List.filter_cons, List.filterMap_cons,
            liveJsonFile, keptFile, descOf, hjson, hc, ih1, ih2]
    · refine ⟨?_, ?_⟩ <;>
        simp [discover_sessions, List.filter_cons, List.filterMap_cons,
          liveJsonFile, keptFile, descOf, hjson, ih1, ih2]

/-! The claims. -/

/-- C1: `discover_sessions` returns exactly the descriptors of those
`.json` files that parse and whose pid probes alive, in listing order;
the files remaining afterwards are exactly the non-`.json` files plus
the live parsed ones (so every excluded `.json` file — dead pid or
unparsable — is deleted); and the backing file of every returned
descriptor is still present afterwards. -/
theorem discover_returns_exactly_live (probe : Int → KillResult) (files : List FSFile) :
    (discover_sessions probe files).1 = (files.filter (liveJsonFile probe)).filterMap descOf ∧
    (discover_sessions probe files).2 = files.filter (keptFile probe) ∧
    ((files.filter (liveJsonFile probe)).all
      fun f => decide (f ∈ (discover_sessions probe files).2)) = true := by
  obtain ⟨h1, h2⟩ := discover_fst_snd probe files
  refine ⟨h1, h2, ?_⟩
  rw [List.all_eq_true]
  intro f hf
  rw [decide_eq_true_eq, h2]
  have hmem := List.mem_filter.mp hf
  refine List.mem_filter.mpr ⟨hmem.1, ?_⟩
  simp [keptFile, hmem.2]

/-- C2: against a fixed discovery result made of well-formed descriptors
with unique session names (the data-model invariant), any number of
successive `get_r_addin_url` calls all return one same address: the
first call fixes the binding and every later call repeats its answer. -/
theorem resolve_sticky_repeat (ss : List Desc) (hwf : SessionsWF ss)
    (hnd : NamesNodup ss) (st0 : Option String) (n : Nat) :
    ∃ u stf, resolveTimes ss st0 (n + 1) = .ok (List.replicate (n + 1) (some u), stf) := by
  obtain ⟨u, st1, h1, hfixp⟩ := resolve_step hwf hnd st0
  refine ⟨u, st1, ?_⟩
  simp [resolveTimes, h1, resolveTimes_fix hfixp n, List.replicate_succ]

theorem resolve_sticky_repeat_witness :
    ∃ u stf, resolveTimes
      [{ session_name := some "alpha", port := some 9001, pid := some 41 },
       { session_name := some "beta", port := some 9002, pid := some 42 }]
      none 3 = .ok (List.replicate 3 (some u), stf) :=
  resolve_sticky_repeat _ (by decide) (by decide) none 2

/-- C3: if the bound session's descriptor is gone from the next discovery
result (and the remaining well-formed descriptors use other ports), the
next `get_r_addin_url` call does not raise: on an empty result it
returns the fallback address, otherwise it rebinds to one of the
remaining descriptors and returns that descriptor's address, which
differs from the vanished session's address. -/
theorem resolve_self_heals (ss2 : List Desc) (t : String) (pt : Int)
    (hwf : SessionsWF ss2) (ht : t ≠ "")
    (hgone : ∀ d ∈ ss2, d.session_name ≠ some t)
    (hport : ∀ d ∈ ss2, d.port ≠ some pt) :
    ∃ u st', get_r_addin_url ss2 (some t) = .ok (some u, st') ∧
      (ss2 = [] → u = R_ADDIN_URL ∧ st' = some t) ∧
      (ss2 ≠ [] → u ≠ mkUrl pt ∧ st' ≠ some t ∧
        ∃ d ∈ ss2, ∃ nm p, d.session_name = some nm ∧ d.port = some p ∧
          st' = some nm ∧ u = mkUrl p) := by
  by_cases hss : ss2 = []
  · subst hss
    exact ⟨R_ADDIN_URL, some t, by simp [get_r_addin_url],
      fun _ => ⟨rfl, rfl⟩, fun h => absurd rfl h⟩
  · have hie : ss2.isEmpty = false := by
      simpa [List.isEmpty_iff] using hss
    obtain ⟨P, hPmem, nm, p, hPnm, hPp, hauto, -, -⟩ := autopick_spec hwf hss
    have hfbn : find_by_name t ss2 = .ok none := by
      rcases find_by_name_cases t ss2 hwf with h | ⟨s, h, hmem, hsn⟩
      · exact h
      · exact absurd hsn (hgone s hmem)
    have heq : get_r_addin_url ss2 (some t) = .ok (some (mkUrl p), some nm) := by
      simp [get_r_addin_url, hie, truthy, ht, hfbn, hauto]
    refine ⟨mkUrl p, some nm, heq, fun h => absurd h hss,
      fun _ => ⟨?_, ?_, P, hPmem, nm, p, hPnm, hPp, rfl, rfl⟩⟩
    · intro hu
      exact hport P hPmem (by rw [mkUrl_injective hu] at hPp; exact hPp)
    · intro hst
      injection hst with h
      exact hgone P hPmem (h ▸ hPnm)

theorem resolve_self_heals_witness :
    ∃ u st', get_r_addin_url
        [{ session_name := some "alpha", port := some 9001, pid := some 41 }]
        (some "gone") = .ok (some u, st') ∧
      (([{ session_name := some "alpha", port := some 9001, pid := some 41 }] : List Desc)
          = [] → u = R_ADDIN_URL ∧ st' = some "gone") ∧
      (([{ session_name := some "alpha", port := some 9001, pid := some 41 }] : List Desc)
          ≠ [] → u ≠ mkUrl 9000 ∧ st' ≠ some "gone" ∧
        ∃ d ∈ ([{ session_name := some "alpha", port := some 9001, pid := some 41 }] : List Desc),
          ∃ nm p, d.session_name = some nm ∧ d.port = some p ∧
            st' = some nm ∧ u = mkUrl p) :=
  resolve_self_heals _ "gone" 9000 (by decide) (by decide) (by decide) (by decide)

/-- C4: with no binding set and a non-empty well-formed discovery result,
`get_r_addin_url` picks a descriptor named "default" when one exists and
otherwise a descriptor of numerically lowest port, returning that
descriptor's address and binding to its name. -/
theorem resolve_autopick_rule (ss : List Desc) (hwf : SessionsWF ss) (hne : ss ≠ []) :
    ∃ d ∈ ss, ∃ nm p, d.session_name = some nm ∧ d.port = some p ∧
      get_r_addin_url ss none = .ok (some (mkUrl p), some nm) ∧
      ((∃ e ∈ ss, e.session_name = some "default") → nm = "default") ∧
      ((∀ e ∈ ss, e.session_name ≠ some "default") →
        ∀ e ∈ ss, ∀ q, e.port = some q → p ≤ q) := by
  have hie : ss.isEmpty = false := by
    simpa [List.isEmpty_iff] using hne
  obtain ⟨P, hPmem, nm, p, h1, h2, hauto, h4, h5⟩ := autopick_spec hwf hne
  exact ⟨P, hPmem, nm, p, h1, h2, by simp [get_r_addin_url, hie, truthy, hauto], h4, h5⟩

theorem resolve_autopick_rule_witness :
    (∃ d ∈ ([{ session_name := some "alpha", port := some 9001, pid := some 41 },
              { session_name := some "beta", port := some 9002, pid := some 42 }] : List Desc),
      ∃ nm p, d.session_name = some nm ∧ d.port = some p ∧
        get_r_addin_url
          [{ session_name := some "alpha", port := some 9001, pid := some 41 },
           { session_name := some "beta", port := some 9002, pid := some 42 }] none
          = .ok (some (mkUrl p), some nm) ∧
        ((∃ e ∈ ([{ session_name := some "alpha", port := some 9001, pid := some 41 },
                   { session_name := some "beta", port := some 9002, pid := some 42 }] : List Desc),
            e.session_name = some "default") → nm = "default") ∧
        ((∀ e ∈ ([{ session_name := some "alpha", port := some 9001, pid := some 41 },
                   { session_name := some "beta", port := some 9002, pid := some 42 }] : List Desc),
            e.session_name ≠ some "default") →
          ∀ e ∈ ([{ session_name := some "alpha", port := some 9001, pid := some 41 },
                   { session_name := some "beta", port := some 9002, pid := some 42 }] : List Desc),
            ∀ q, e.port = some q → p ≤ q)) ∧
    (∃ d ∈ ([{ session_name := some "beta", port := some 9002, pid := some 42 },
              { session_name := some "alpha", port := some 9001, pid := some 41 }] : List Desc),
      ∃ nm p, d.session_name = some nm ∧ d.port = some p ∧
        get_r_addin_url
          [{ session_name := some "beta", port := some 9002, pid := some 42 },
           { session_name := some "alpha", port := some 9001, pid := some 41 }] none
          = .ok (some (mkUrl p), some nm) ∧
        ((∃ e ∈ ([{ session_name := some "beta", port := some 9002, pid := some 42 },
                   { session_name := some "alpha", port := some 9001, pid := some 41 }] : List Desc),
            e.session_name = some "default") → nm = "default") ∧
        ((∀ e ∈ ([{ session_name := some "beta", port := some 9002, pid := some 42 },
                   { session_name := some "alpha", port := some 9001, pid := some 41 }] : List Desc),
            e.session_name ≠ some "default") →
          ∀ e ∈ ([{ session_name := some "beta", port := some 9002, pid := some 42 },
                   { session_name := some "alpha", port := some 9001, pid := some 41 }] : List Desc),
            ∀ q, e.port = some q → p ≤ q)) :=
  ⟨resolve_autopick_rule _ (by decide) (by decide),
   resolve_autopick_rule _ (by decide) (by decide)⟩

/-- C5 counterexample: a live session literally named the empty string is
present in the fresh discovery result, yet connecting with that name
fails — with the argument-required reply, which carries no list of
available names — and so the tool does not fail only when the name is
absent from discovery, and not every failure reply enumerates the
available sessions. -/
theorem connect_session_empty_name_cex :
    connect_session [{ session_name := some "", port := some 9000, pid := some 41 }] none ""
        = (.missingArg, none) ∧
      ([{ session_name := some "", port := some 9000, pid := some 41 }] : List Desc).any
        (fun s => s.session_name == some "") = true :=
  ⟨rfl, by decide⟩

/-- C5 amended: the empty requested name always fails with the
argument-required reply and an unchanged binding; a nonempty requested
name fails exactly when no discovered descriptor carries it, the failure
reply listing the available names and leaving the binding unchanged,
and success unconditionally overwrites the binding with the requested
name. -/
theorem connect_session_rule (ss : List Desc) (st : Option String) (name : String) :
    (name = "" → connect_session ss st name = (.missingArg, st)) ∧
    (name ≠ "" →
      (ss.any (fun s => s.session_name == some name) = true →
        connect_session ss st name = (.connected name, some name)) ∧
      (ss.any (fun s => s.session_name == some name) = false →
        connect_session ss st name =
          (.notFound name (ss.map (fun s => s.session_name.getD "?")), st))) := by
  refine ⟨?_, ?_⟩
  · intro h
    subst h
    simp [connect_session]
  · intro hne
    constructor
    · intro hany
      simp [connect_session, hne, hany]
    · intro hany
      simp [connect_session, hne, hany]

theorem connect_session_rule_witness :
    connect_session
        [{ session_name := some "alpha", port := some 9001, pid := some 41 }]
        (some "other") "alpha" = (.connected "alpha", some "alpha") ∧
      connect_session
        [{ session_name := some "alpha", port := some 9001, pid := some 41 }]
        (some "other") "beta"
        = (.notFound "beta" ["alpha"], some "other") ∧
      connect_session
        [{ session_name := some "alpha", port := some 9001, pid := some 41 }]
        (some "other") "" = (.missingArg, some "other") :=
  ⟨((connect_session_rule _ _ _).2 (by decide)).1 (by decide),
   ((connect_session_rule _ _ _).2 (by decide)).2 (by decide),
   (connect_session_rule _ _ _).1 rfl⟩

/-- C6 counterexample: a probe that fails with permission denied makes
`_pid_alive` return False — the claim says it returns True there. -/
theorem pid_alive_permission_denied_cex :
    pid_alive_outcome KillResult.permissionError = false := rfl

/-- C6 amended: `_pid_alive` returns True exactly when the probe
succeeds; every probe failure — no-such-process, permission denied, or
any other OSError — returns False, because PermissionError is an
OSError and the except clause catches all OSErrors. -/
theorem pid_alive_iff_probe_ok (r : KillResult) :
    pid_alive_outcome r = true ↔ r = KillResult.ok := by
  cases r <;> simp [pid_alive_outcome]

/-- C7 counterexample: with an empty discovery result the sender does not
return the explicit no-sessions error dict; it contacts the constant
fallback address, and a refused connection there yields exactly the
transport-error dict that a refused connection against a live session
yields — the two situations are not distinguishable by error kind. -/
theorem no_sessions_error_unreachable_cex :
    execute_r_code_via_addin (fun _ => .httpError "connection refused") [] none
        = .ok (httpErrorBody "connection refused", none) ∧
      httpErrorBody "connection refused" ≠ noSessionsBody ∧
      execute_r_code_via_addin (fun _ => .httpError "connection refused")
        [{ session_name := some "default", port := some 9000, pid := some 41 }] none
        = .ok (httpErrorBody "connection refused", some "default") := by
  refine ⟨rfl, by decide, rfl⟩

/-- C7 amended: resolution never produces the None that the no-sessions
branch of the senders tests for; with empty discovery it returns the
constant fallback address with unchanged state, so the send proceeds
against the fallback and surfaces a failure there as a transport
error. -/
theorem send_on_empty_discovery (st : Option String) (transport : String → HttpOutcome)
    (e : String) (hrefuse : transport R_ADDIN_URL = .httpError e) :
    get_r_addin_url [] st = .ok (some R_ADDIN_URL, st) ∧
    (∀ ss st' u stf, get_r_addin_url ss st' = .ok (u, stf) → u ≠ none) ∧
    execute_r_code_via_addin transport [] st = .ok (httpErrorBody e, st) := by
  refine ⟨by simp [get_r_addin_url], fun ss st' u stf h => resolve_never_none h, ?_⟩
  simp [execute_r_code_via_addin, get_r_addin_url, hrefuse]

theorem send_on_empty_discovery_witness :
    get_r_addin_url [] none = .ok (some R_ADDIN_URL, none) ∧
    (∀ ss st' u stf, get_r_addin_url ss st' = .ok (u, stf) → u ≠ none) ∧
    execute_r_code_via_addin (fun _ => .httpError "connection refused") [] none
      = .ok (httpErrorBody "connection refused", none) :=
  send_on_empty_discovery none (fun _ => .httpError "connection refused")
    "connection refused" rfl

/-- C8: the effect trace of every `get_async_result` invocation starts
with the fixed 10-second sleep, and everything after it is the
status-check POST — so the delay precedes the status request on every
call, whatever the discovery state, binding, transport outcome and job
state. -/
theorem poll_sleep_precedes_check (transport : String → HttpOutcome) (ss : List Desc)
    (st : Option String) (job_id : String) :
    ∃ tail, (get_async_result_model transport ss st job_id).1 = Effect.sleep 10 :: tail ∧
      ∀ e ∈ tail, ∃ url, e = Effect.httpPost url job_id := by
  refine ⟨(post_to_r_addin_traced transport ss st job_id).1, rfl, ?_⟩
  rcases post_traced_shape transport ss st job_id with h | ⟨url, h⟩ <;> rw [h]
  · intro e he
    cases he
  · intro e he
    rcases List.mem_cons.mp he with rfl | h'
    · exact ⟨url, rfl⟩
    · cases h'

/-- C9 counterexample: a discovered descriptor with a live pid and the
name "default" but no port key makes resolution raise a KeyError which
also escapes the sender, since the sender resolves the address outside
its try block — so not every input yields a structured result. -/
theorem resolve_keyerror_cex :
    get_r_addin_url [{ session_name := some "default", pid := some 41 }] none
        = .error (.keyError "port") ∧
      execute_r_code_via_addin (fun _ => .httpError "refused")
        [{ session_name := some "default", pid := some 41 }] none
        = .error (.keyError "port") :=
  ⟨rfl, rfl⟩

/-- C9 amended: when every discovered descriptor carries both
session_name and port, resolution and both senders terminate normally,
every transport failure surfacing as a structured result with a success
flag and error description; a descriptor missing either key instead
raises an uncaught KeyError (see the counterexample). -/
theorem routing_total_on_wellformed (ss : List Desc) (hwf : SessionsWF ss)
    (st : Option String) (transport : String → HttpOutcome) :
    (∃ u st', get_r_addin_url ss st = .ok (some u, st')) ∧
    (∃ body st', execute_r_code_via_addin transport ss st = .ok (body, st')) ∧
    (∃ body st', post_to_r_addin transport ss st = .ok (body, st')) := by
  obtain ⟨u, st', hres⟩ := resolve_ok hwf st
  refine ⟨⟨u, st', hres⟩, ?_, ?_⟩
  · cases htr : transport u with
    | ok body =>
      exact ⟨body, st', by simp [execute_r_code_via_addin, hres, htr]⟩
    | httpError e =>
      exact ⟨httpErrorBody e, st', by simp [execute_r_code_via_addin, hres, htr]⟩
    | otherError e =>
      exact ⟨commErrorBody e, st', by simp [execute_r_code_via_addin, hres, htr]⟩
  · cases htr : transport u with
    | ok body =>
      exact ⟨body, st', by simp [post_to_r_addin, hres, htr]⟩
    | httpError e =>
      exact ⟨commErrorBody e, st', by simp [post_to_r_addin, hres, htr]⟩
    | otherError e =>
      exact ⟨commErrorBody e, st', by simp [post_to_r_addin, hres, htr]⟩

theorem routing_total_on_wellformed_witness :
    (∃ u st', get_r_addin_url
        [{ session_name := some "alpha", port := some 9001, pid := some 41 }] none
        = .ok (some u, st')) ∧
    (∃ body st', execute_r_code_via_addin (fun _ => .otherError "bad json")
        [{ session_name := some "alpha", port := some 9001, pid := some 41 }] none
        = .ok (body, st')) ∧
    (∃ body st', post_to_r_addin (fun _ => .otherError "bad json")
        [{ session_name := some "alpha", port := some 9001, pid := some 41 }] none
        = .ok (body, st')) :=
  routing_total_on_wellformed _ (by decide) none (fun _ => .otherError "bad json")

/-- C10: a status body whose status key is neither "running" nor
"not_found" — a missing status key included — is treated as terminal:
the reply is the job's error or its completion output (possibly empty),
and never the still-running reply. -/
theorem poll_terminal_on_other_status (job_id : String) (body : RBody)
    (h1 : body.status ≠ some "running") (h2 : body.status ≠ some "not_found") :
    ((∃ m, classify_job_result job_id body = .jobError m) ∨
      (∃ o, classify_job_result job_id body = .completed o) ∨
      classify_job_result job_id body = .completedNoOutput) ∧
    ∀ j el, classify_job_result job_id body ≠ .stillRunning j el := by
  have hs2 : body.status.getD "unknown" ≠ "not_found" := by
    cases hb : body.status with
    | none => simp
    | some s =>
      simp only [Option.getD_some]
      intro h
      exact h2 (by rw [hb, h])
  have hs1 : body.status.getD "unknown" ≠ "running" := by
    cases hb : body.status with
    | none => simp
    | some s =>
      simp only [Option.getD_some]
      intro h
      exact h1 (by rw [hb, h])
  have hterm : (∃ m, classify_job_result job_id body = .jobError m) ∨
      (∃ o, classify_job_result job_id body = .completed o) ∨
      classify_job_result job_id body = .completedNoOutput := by
    unfold classify_job_result
    rw [if_neg hs2, if_neg hs1]
    by_cases hsucc : body.success.getD false = true
    · rw [if_neg (by simpa using hsucc)]
      cases ho : body.output with
      | none => exact Or.inr (Or.inr rfl)
      | some out =>
        by_cases hout : out = ""
        · subst hout
          exact Or.inr (Or.inr (by simp))
        · exact Or.inr (Or.inl ⟨out, by simp [hout]⟩)
    · rw [if_pos (by simpa using hsucc)]
      exact Or.inl ⟨_, rfl⟩
  refine ⟨hterm, ?_⟩
  intro j el hc
  rcases hterm with ⟨m, h⟩ | ⟨o, h⟩ | h <;> rw [h] at hc <;> simp at hc

theorem poll_terminal_on_other_status_witness :
    ((∃ m, classify_job_result "job1"
        { success := some false, error := some "boom" } = .jobError m) ∨
      (∃ o, classify_job_result "job1"
        { success := some false, error := some "boom" } = .completed o) ∨
      classify_job_result "job1"
        { success := some false, error := some "boom" } = .completedNoOutput) ∧
    ∀ j el, classify_job_result "job1"
        { success := some false, error := some "boom" } ≠ .stillRunning j el :=
  poll_terminal_on_other_status "job1" _ (by decide) (by decide)

end ClaudeR
